import Mathlib

/-!
Verification of the interactive terminal core of the `whoami.sh` repository.

The JavaScript sources are shallowly embedded as Lean definitions:

* `src/js/main.js` (the second module in the file, `terminal-logic.js`):
  the filesystem cache (`fileSystemCache`), the GitHub content adapter
  (`getDirectoryContents`, `getFileContent`), the autocomplete engine
  (`getAutocompleteSuggestions` and its helpers), the command interpreter
  (`handleCommand`) and `resetTerminal`.
* `src/js/terminal-events.js`: the input controller (`setupInput`) — history
  navigation (ArrowUp/ArrowDown), the Enter submission pipeline, and the
  Ctrl+U autocomplete session machinery.
* `src/unnamed/part_001` (`theme-manager.js`): the theme registry and
  `setTheme`.

DOM rendering is embedded as an append-only list of output lines (`OutLine`);
`fetch` is embedded as a function from paths to optional remote data;
`atob` (base64 decoding, a browser builtin) is a parameter `dec` that may
fail; JavaScript exceptions escaping `handleCommand` are the `.thrown`
result constructor.  The literal texts of the static informational
commands (`about`, `education`, the welcome banner) are opaque render
calls and are embedded as opaque `OutLine` constructors.
-/

namespace Whoami

/-! ## Remote filesystem data (GitHub contents API) -/

/-- One entry of a directory listing: `{name, type}` with `type` either
`"file"` or `"dir"`, exactly as the GitHub contents API serves it. -/
structure FsEntry where
  name : String
  typ : String
deriving DecidableEq, Repr

/-- The JSON payload served for a path: either a directory listing (an array
of entries) or a file object `{type, content}` whose base64 `content` field
may be absent. -/
inductive RemoteData where
  | listing (entries : List FsEntry)
  | fileObj (typ : String) (content : Option String)
deriving DecidableEq, Repr

/-- `fileSystemCache` from `terminal-logic.js`: a `Map` from path to the raw
fetched payload.  Embedded as an association list; `cacheSet` conses, and
`cacheGet` returns the most recent binding, matching `Map.set`/`Map.get`. -/
def Cache : Type := List (String × RemoteData)

instance : DecidableEq Cache := by
  unfold Cache
  infer_instance

def cacheGet (c : Cache) (p : String) : Option RemoteData :=
  (List.find? (fun kv => kv.1 = p) c).map (fun kv => kv.2)

def cacheSet (c : Cache) (p : String) (d : RemoteData) : Cache :=
  (p, d) :: c

/-- The remote content provider (`fetch` against the GitHub API).  `none`
covers both a non-2xx response and a network error: the two are handled
identically by the source (`catch` → `null` / `!response.ok` → `null`). -/
def Remote : Type := String → Option RemoteData

/-! ## Path helpers

The source manipulates paths with `String.prototype.lastIndexOf('/')` and
`String.prototype.substring`; these are embedded on `List Char`. -/

def lastSlashAux : List Char → Int → Int → Int
  | [], _, acc => acc
  | c :: cs, i, acc => lastSlashAux cs (i + 1) (if c = '/' then i else acc)

/-- `s.lastIndexOf('/')`: index of the last `'/'`, or `-1` if none. -/
def lastIndexOfSlash (s : String) : Int :=
  lastSlashAux s.toList 0 (-1)

/-- `s.substring(0, e)` — a negative `e` is clamped to `0`. -/
def jsTake (s : String) (e : Int) : String :=
  String.mk (s.toList.take e.toNat)

/-- `s.substring(i)` — drop the first `i` characters. -/
def jsDropFrom (s : String) (i : Int) : String :=
  String.mk (s.toList.drop i.toNat)

/-- `p.substring(0, p.lastIndexOf('/')) || '/'` — the parent path; this
exact expression appears twice in the `cd` handler (once to strip the last
segment for `..`, once to re-derive the candidate's parent). -/
def pathParent (p : String) : String :=
  if jsTake p (lastIndexOfSlash p) = "" then "/"
  else jsTake p (lastIndexOfSlash p)

/-- `p.substring(p.lastIndexOf('/') + 1)` — the leaf name of a path. -/
def pathLeaf (p : String) : String :=
  jsDropFrom p (lastIndexOfSlash p + 1)

/-- `s.startsWith('/')` on a JavaScript string: the first character is `/`. -/
def startsWithSlash (s : String) : Bool :=
  s.toList.head? = some '/'

/-! ## JavaScript string primitives

The remaining string operations the source uses (`trim`, `split(' ')`,
`toLowerCase`, `startsWith`, `join`) are embedded structurally on
`List Char` so that every definition evaluates inside the kernel. -/

/-- `s.trim()`: strip leading and trailing whitespace. -/
def jsTrim (s : String) : String :=
  String.mk (((s.toList.dropWhile Char.isWhitespace).reverse.dropWhile
    Char.isWhitespace).reverse)

def jsSplitAux : List Char → List Char → List String
  | [], acc => [String.mk acc.reverse]
  | c :: cs, acc =>
    if c = ' ' then String.mk acc.reverse :: jsSplitAux cs []
    else jsSplitAux cs (c :: acc)

/-- `s.split(' ')`: split on every single space character, keeping empty
fragments (`''.split(' ')` is `['']`). -/
def jsSplit (s : String) : List String :=
  jsSplitAux s.toList []

/-- `s.toLowerCase()` (the source only ever applies it to ASCII input). -/
def jsToLower (s : String) : String :=
  String.mk (s.toList.map Char.toLower)

/-- `s.startsWith(p)`. -/
def jsStartsWith (s pfx : String) : Bool :=
  List.isPrefixOf pfx.toList s.toList

/-- `parts.join(' ')`. -/
def joinSpace : List String → String
  | [] => ""
  | [x] => x
  | x :: xs => x ++ " " ++ joinSpace xs

/-! ## Theme manager (`src/unnamed/part_001`) -/

structure ThemeInfo where
  name : String
  description : String
deriving DecidableEq, Repr

/-- The `themes` object literal: an ordered registry of theme keys. -/
def themes : List (String × ThemeInfo) :=
  [ ("catppuccin-mocha",
      ⟨"Catppuccin Mocha", "🍫 The darkest Catppuccin flavor with rich, deep colors"⟩),
    ("gruvbox",
      ⟨"Gruvbox", "🍂 Retro groove colors with warm earth tones"⟩),
    ("matrix",
      ⟨"Matrix", "💊 Green on black like the Matrix terminal"⟩),
    ("catppuccin-latte",
      ⟨"Catppuccin Latte", "☕ A warm, light theme perfect for daytime coding"⟩) ]

/-- `themes[k]` — key lookup in the registry object. -/
def themesGet (k : String) : Option ThemeInfo :=
  (List.find? (fun kv => kv.1 = k) themes).map (fun kv => kv.2)

/-- The theme-manager module state: the `currentTheme` variable, the
`data-theme` attribute on `document.documentElement`, and the
`terminal-theme` key in `localStorage`. -/
structure ThemeState where
  currentTheme : String
  documentThemeAttr : Option String
  storedTheme : Option String
deriving DecidableEq, Repr

def initialThemeState : ThemeState :=
  ⟨"catppuccin-mocha", none, none⟩

/-- Property names every object literal inherits from `Object.prototype`;
all of them are bound to truthy values (functions, or `Object.prototype`
itself for `__proto__`), so they defeat a `!obj[k]` falsiness guard. -/
def objectPrototypeKeys : List String :=
  ["constructor", "hasOwnProperty", "isPrototypeOf", "propertyIsEnumerable",
   "toLocaleString", "toString", "valueOf", "__proto__",
   "__defineGetter__", "__defineSetter__", "__lookupGetter__", "__lookupSetter__"]

/-- What the JavaScript property access `themes[k]` yields: an own key of
the registry literal, a truthy member inherited from `Object.prototype`,
or `undefined`. -/
inductive ThemesMember where
  | own (info : ThemeInfo)
  | inherited
  | undefinedAccess
deriving DecidableEq, Repr

def themesMember (k : String) : ThemesMember :=
  match themesGet k with
  | some info => .own info
  | none => if k ∈ objectPrototypeKeys then .inherited else .undefinedAccess

/-- The mutation path of `setTheme` (run whenever the `!themes[themeName]`
guard is passed): set the module variable, the document attribute (removed
for the default theme), and the persisted selection. -/
def setThemeApply (themeName : String) (st : ThemeState) : ThemeState :=
  { st with
    currentTheme := themeName,
    documentThemeAttr :=
      if themeName = "catppuccin-mocha" then none else some themeName,
    storedTheme := some themeName }

/-- `setTheme` from `theme-manager.js`: `if (!themes[themeName]) return
false;` — a *falsiness* check on the property access, so both own keys and
inherited `Object.prototype` members pass the guard and are installed;
only arguments on which the access is `undefined` are rejected. -/
def setTheme (themeName : String) (st : ThemeState) : Bool × ThemeState :=
  match themesMember themeName with
  | .undefinedAccess => (false, st)
  | _ => (true, setThemeApply themeName st)

/-- `getThemesList`: ordered `{key, name, description}` triples. -/
def getThemesList : List (String × ThemeInfo) := themes

/-! ## Rendered output

The terminal DOM is embedded as an ordered list of rendered lines.  The
static informational blobs (`about`, `education`, the welcome banner, and
the animated `about me` response) are opaque constructors: the spec treats
their literal text as an external render call the core does not own. -/

inductive OutLine where
  /-- a `div.line` whose `textContent` is set -/
  | text (s : String)
  /-- a `div.line` whose `innerHTML` is set -/
  | html (s : String)
  /-- an `ls` entry of kind directory: `<span class="dir">name</span>` -/
  | dirSpan (name : String)
  /-- a `pre.line` (file contents, from `cat`) -/
  | preText (s : String)
  /-- the live prompt line, carrying its rendered directory display -/
  | promptLine (dirDisplay : String)
  /-- the echo of a submitted command: prompt (sans input span) + typed line -/
  | echoLine (dirDisplay : String) (command : String)
  /-- a bare `<br>` element -/
  | brk
  /-- the welcome banner (`showWelcomeMessage`) -/
  | welcome
  /-- the static `about` biography (`pre.line`, text owned by the render layer) -/
  | aboutBio
  /-- the static `education` text (`pre.line`, text owned by the render layer) -/
  | educationBio
  /-- the animated `about me` response (`typeAnimatedText`) -/
  | aboutMeAnim
  /-- the `themes <key>` success line when `key` is only an inherited
  `Object.prototype` member: the text interpolates that runtime value's
  `.name` and `.description` (JavaScript standard-library values, opaque
  here) -/
  | themeChangedInherited (key : String)
  /-- the `themes` list title when the stored current theme is only an
  inherited `Object.prototype` member (its `.name` is again a runtime
  value) -/
  | themesTitleInherited (key : String)
deriving DecidableEq, Repr

/-- `dirDisplay` as computed by `createPromptHTML` and the `clear` handler:
`currentDirectory === '/' ? '~' : '~' + currentDirectory`. -/
def dirDisplay (currentDirectory : String) : String :=
  if currentDirectory = "/" then "~" else "~" ++ currentDirectory

/-! ## Interpreter-visible state -/

/-- The state read and written by `handleCommand`: the module-level
`currentDirectory` and `fileSystemCache` variables of `terminal-logic.js`,
the theme-manager state, and the rendered terminal surface. -/
structure TermState where
  currentDirectory : String
  fileSystemCache : Cache
  themeState : ThemeState
  terminal : List OutLine
deriving DecidableEq

/-- `let currentDirectory = '/'` — the initial working directory. -/
def initialDirectory : String := "/"

/-- The structured outcome of one `handleCommand` call.  The `clear` case
returns the object literal `{ clear: true }`, which carries no
`currentDirectory` property — hence the `Option`. -/
structure Outcome where
  clear : Bool
  currentDirectory : Option String
deriving DecidableEq, Repr

/-- Result of a `handleCommand` call: a normal return, or a JavaScript
exception escaping the (async) function, carrying the state at throw time. -/
inductive HcResult where
  | ok (outcome : Outcome) (state : TermState)
  | thrown (state : TermState)
deriving DecidableEq

/-- The state in which a `handleCommand` call left the interpreter. -/
def HcResult.state : HcResult → TermState
  | .ok _ t => t
  | .thrown t => t

/-! ## GitHub API adapter (`getDirectoryContents`, `getFileContent`) -/

/-- `getDirectoryContents`: cached payload if present; otherwise fetch, and
on success store and return the raw payload.  A failed fetch returns `null`
and caches nothing. -/
def getDirectoryContents (remote : Remote) (cache : Cache) (path : String) :
    Option RemoteData × Cache :=
  match cacheGet cache path with
  | some d => (some d, cache)
  | none =>
    match remote path with
    | none => (none, cache)
    | some d => (some d, cacheSet cache path d)

/-- The literal fallback string produced when cached content fails `atob`. -/
def decodeErrorText : String := "Error: Could not decode file content."

/-- `getFileContent`: if the cached payload for `path` carries a truthy
`content` field it is decoded in place (a decode failure yields the literal
`decodeErrorText` string); otherwise the object is fetched.  On the fetch
path, a failed response, a non-file object, or a falsy `content` all return
`null`; otherwise the raw payload is cached *before* decoding, so a decode
failure still leaves the payload cached but returns `null`.
`dec` embeds the browser's `atob`. -/
def getFileContent (dec : String → Option String) (remote : Remote)
    (cache : Cache) (path : String) : Option String × Cache :=
  let fetchPath : Option String × Cache :=
    match remote path with
    | none => (none, cache)
    | some (.listing _) => (none, cache)
    | some (.fileObj _ none) => (none, cache)
    | some (.fileObj t (some c)) =>
      if t = "file" ∧ c ≠ "" then
        (dec c, cacheSet cache path (.fileObj t (some c)))
      else
        (none, cache)
  match cacheGet cache path with
  | some (.fileObj _ (some c)) =>
    if c ≠ "" then
      match dec c with
      | some txt => (some txt, cache)
      | none => (some decodeErrorText, cache)
    else fetchPath
  | _ => fetchPath

/-! ## Command registry and autocomplete engine -/

structure CommandInfo where
  cmd : String
  desc : String
deriving DecidableEq, Repr

/-- `commandList`: the centralized command table, in source order. -/
def commandList : List CommandInfo :=
  [ ⟨".", "Open the source code repository from current directory"⟩,
    ⟨"about", "Learn about me and my background"⟩,
    ⟨"cat", "Display content of a file (e.g., cat README.md)"⟩,
    ⟨"cd", "Change directory (e.g., cd js, cd ..)"⟩,
    ⟨"clear", "Clear the terminal"⟩,
    ⟨"echo", "Print text to the terminal"⟩,
    ⟨"education", "Show my educational background"⟩,
    ⟨"email", "Open your email client to contact me"⟩,
    ⟨"github", "Open my GitHub profile"⟩,
    ⟨"help", "Show this help message"⟩,
    ⟨"history", "Show command history"⟩,
    ⟨"linkedin", "Open my LinkedIn profile"⟩,
    ⟨"ls", "List directory contents"⟩,
    ⟨"pwd", "Print current working directory"⟩,
    ⟨"themes", "Change the terminal theme (coming soon)"⟩,
    ⟨"welcome", "Display the welcome message"⟩,
    ⟨"whoami", "Display the current user"⟩ ]

/-- `getFileCompletions`: file-kind entries of the working directory whose
names extend the typed fragment.  The first component is `none` when the
cached/fetched payload is a file object: the source then calls `.filter`
on a non-array and throws. -/
def getFileCompletions (remote : Remote) (currentDirectory : String)
    (cache : Cache) (pfx : String) : Option (List String) × Cache :=
  match getDirectoryContents remote cache currentDirectory with
  | (none, c) => (some [], c)
  | (some (.listing es), c) =>
    (some ((es.filter (fun e => e.typ = "file" ∧ jsStartsWith e.name pfx)).map
      (fun e => e.name)), c)
  | (some (.fileObj _ _), c) => (none, c)

/-- `getThemeCompletions`: registered theme keys extending the fragment. -/
def getThemeCompletions (pfx : String) : List String :=
  (themes.map (fun kv => kv.1)).filter (fun k => jsStartsWith k pfx)

/-- `getDirectoryCompletions`: directory-kind entries of the working
directory extending the fragment, with `".."` prepended when not at the
root; when the listing cannot be obtained the result is `[]` (and no `".."`
is added).  `none` marks the thrown case as in `getFileCompletions`. -/
def getDirectoryCompletions (remote : Remote) (currentDirectory : String)
    (cache : Cache) (pfx : String) : Option (List String) × Cache :=
  match getDirectoryContents remote cache currentDirectory with
  | (none, c) => (some [], c)
  | (some (.listing es), c) =>
    let directories :=
      (es.filter (fun e => e.typ = "dir" ∧ jsStartsWith e.name pfx)).map
        (fun e => e.name)
    if currentDirectory ≠ "/" ∧ jsStartsWith ".." pfx then
      (some (".." :: directories), c)
    else
      (some directories, c)
  | (some (.fileObj _ _), c) => (none, c)

/-- `getAutocompleteSuggestions`: one token → command-name completions
(against the lowercased token); two tokens → per-command argument
completions; anything else → `[]`.  The first component is `none` when the
underlying helper threw. -/
def getAutocompleteSuggestions (remote : Remote) (currentDirectory : String)
    (cache : Cache) (input : String) : Option (List String) × Cache :=
  let parts := jsSplit (jsTrim input)
  let command := jsToLower (parts.headD "")
  let arg := (parts.getD 1 "")
  if parts.length = 1 then
    (some ((commandList.map (fun c => c.cmd)).filter
      (fun c => jsStartsWith c command)), cache)
  else if parts.length = 2 then
    if command = "cat" then getFileCompletions remote currentDirectory cache arg
    else if command = "themes" then (some (getThemeCompletions arg), cache)
    else if command = "cd" then getDirectoryCompletions remote currentDirectory cache arg
    else (some [], cache)
  else
    (some [], cache)

/-! ## Command interpreter (`handleCommand`) -/

/-- `args[0] || '/'` — the `cd` target with its default. -/
def cdTarget (args : List String) : String :=
  match args.head? with
  | none => "/"
  | some a => if a = "" then "/" else a

/-- The candidate path computed by the `cd` handler: `..` strips the last
segment via `pathParent`; a `/`-prefixed target is used verbatim; any other
target is appended to the current directory with a single `/` (no doubled
separator at the root). -/
def cdNewPath (currentDirectory targetDir : String) : String :=
  if targetDir = ".." then pathParent currentDirectory
  else if startsWithSlash targetDir then targetDir
  else if currentDirectory = "/" then "/" ++ targetDir
  else currentDirectory ++ "/" ++ targetDir

/-- `cd: no such file or directory: ${targetDir}` -/
def cdNoSuchDirLine (targetDir : String) : String :=
  "cd: no such file or directory: " ++ targetDir

/-- The error rendered by `themes <arg>` for an unregistered key. -/
def themeNotFoundLine (themeArg : String) : String :=
  "❌ Theme \x27<span class=\"cmd\">" ++ themeArg ++
    "</span>\x27 not found. Use <span class=\"cmd\">themes</span> to see available themes."

/-- The success line rendered by `themes <arg>` for a registered key. -/
def themeChangedLine (info : ThemeInfo) : String :=
  "✨ Theme changed to <span class=\"cmd\">" ++ info.name ++ "</span>! " ++ info.description

/-- The JavaScript final `return { clear: false, currentDirectory }`, which
every `break`ing switch case falls through to. -/
def finishOutcome (t : TermState) : HcResult :=
  .ok ⟨false, some t.currentDirectory⟩ t

/-- The `case '.'` branch. -/
def runDot (t : TermState) : HcResult :=
  finishOutcome { t with terminal := t.terminal ++
    [.text ("Opening directory \x27" ++ t.currentDirectory ++ "\x27 in repository...")] }

/-- The `case 'ls'` branch: list the working directory, one line per entry
(directory entries rendered as a `dir` span), or a single error line.  A
cached file payload at the directory path makes `contents.forEach` throw. -/
def runLs (remote : Remote) (t : TermState) : HcResult :=
  match getDirectoryContents remote t.fileSystemCache t.currentDirectory with
  | (some (.listing contents), c1) =>
    finishOutcome { t with fileSystemCache := c1, terminal := t.terminal ++
      (contents.map (fun item =>
        if item.typ = "dir" then .dirSpan item.name else .text item.name)) }
  | (some (.fileObj _ _), c1) =>
    .thrown { t with fileSystemCache := c1 }
  | (none, c1) =>
    finishOutcome { t with fileSystemCache := c1, terminal := t.terminal ++
      [.text "Error: Could not list directory contents."] }

/-- The tail of the `cat` not-found path (`t1` is the state after the
not-found line was appended): list the current directory and, when it has
files, render the "Available files" tip. -/
def catNotFoundTail (remote : Remote) (t1 : TermState) : HcResult :=
  match getDirectoryContents remote t1.fileSystemCache t1.currentDirectory with
  | (some (.listing contents), c2) =>
    if ((contents.filter (fun item => item.typ = "file")).map
        (fun item => item.name)).length > 0 then
      finishOutcome { t1 with fileSystemCache := c2, terminal := t1.terminal ++
        [.html ("💡 Available files: " ++ String.intercalate ", "
          (((contents.filter (fun item => item.typ = "file")).map
            (fun item => item.name)).map
              (fun f => "<span class=\"cmd\">" ++ f ++ "</span>")))] }
    else
      finishOutcome { t1 with fileSystemCache := c2 }
  | (some (.fileObj _ _), c2) =>
    .thrown { t1 with fileSystemCache := c2 }
  | (none, c2) =>
    finishOutcome { t1 with fileSystemCache := c2 }

/-- The `case 'cat'` branch: `filename` is `args[0]`, where a missing or
empty argument (`!filename`) renders the usage message and tip. -/
def runCat (dec : String → Option String) (remote : Remote)
    (filename : String) (t : TermState) : HcResult :=
  if filename = "" then
    finishOutcome { t with terminal := t.terminal ++
      [.html "❌ Usage: <span class=\"cmd\">cat &lt;filename&gt;</span>",
       .html "💡 Try: <span class=\"cmd\">cat README.md</span> or <span class=\"cmd\">ls</span> to see available files"] }
  else
    match getFileContent dec remote t.fileSystemCache
        (if t.currentDirectory = "/" then "/" ++ filename
         else t.currentDirectory ++ "/" ++ filename) with
    | (some fileContent, c1) =>
      finishOutcome { t with
        fileSystemCache := c1,
        terminal := t.terminal ++ [.preText fileContent] }
    | (none, c1) =>
      catNotFoundTail remote { t with
        fileSystemCache := c1,
        terminal := t.terminal ++
          [.html ("❌ File \x27<span class=\"cmd\">" ++ filename ++
            "</span>\x27 not found or cannot be read.")] }

/-- The `case 'cd'` branch.  The source's `newPath`, `parentPath` and
`dirName` constants are the inlined `cdNewPath`, `pathParent` and
`pathLeaf` applications.  The candidate is installed iff it is the root or
the parent listing holds a directory entry of its leaf name; a cached file
payload at the parent path makes `parentContents.find` throw. -/
def runCd (remote : Remote) (targetDir : String) (t : TermState) : HcResult :=
  match getDirectoryContents remote t.fileSystemCache
      (pathParent (cdNewPath t.currentDirectory targetDir)) with
  | (some (.listing es), c1) =>
    if cdNewPath t.currentDirectory targetDir = "/" ∨
        (es.find? (fun item =>
          item.name = pathLeaf (cdNewPath t.currentDirectory targetDir) ∧
          item.typ = "dir")).isSome then
      finishOutcome { t with
        currentDirectory := cdNewPath t.currentDirectory targetDir,
        fileSystemCache := c1 }
    else
      finishOutcome { t with
        fileSystemCache := c1,
        terminal := t.terminal ++ [.text (cdNoSuchDirLine targetDir)] }
  | (some (.fileObj _ _), c1) =>
    .thrown { t with fileSystemCache := c1 }
  | (none, c1) =>
    if cdNewPath t.currentDirectory targetDir = "/" then
      finishOutcome { t with
        currentDirectory := cdNewPath t.currentDirectory targetDir,
        fileSystemCache := c1 }
    else
      finishOutcome { t with
        fileSystemCache := c1,
        terminal := t.terminal ++ [.text (cdNoSuchDirLine targetDir)] }

/-- The `case 'clear'` branch: wipe the rendered output, re-prime a prompt
showing the (unchanged) working directory, and return `{ clear: true }`. -/
def runClear (t : TermState) : HcResult :=
  .ok ⟨true, none⟩
    { t with terminal := [.promptLine (dirDisplay t.currentDirectory)] }

/-- The `case 'help'` branch. -/
def runHelp (t : TermState) : HcResult :=
  finishOutcome { t with terminal := t.terminal ++
    ([.text "Available commands:", .brk] ++
     (commandList.map (fun c =>
       .html ("<span class=\"cmd\">" ++ c.cmd ++ "</span> <span class=\"cmd-desc\">* " ++
         c.desc ++ "</span>"))) ++
     [.html ("✨ Pro-Tip: Use <span class=\"cmd\">Ctrl+L</span> to clear the terminal screen. " ++
       "✨ Pro-Tip: Use <span class=\"cmd\">Ctrl+U</span> to autocomplete commands.")]) }

/-- The `case 'history'` branch: one numbered line per history entry. -/
def runHistory (commandHistory : List String) (t : TermState) : HcResult :=
  finishOutcome { t with terminal := t.terminal ++
    (commandHistory.enum.map (fun p =>
      .html ("<span style=\"color: var(--comment);\">" ++ toString (p.1 + 1) ++
        "</span>&nbsp;&nbsp;" ++ p.2))) }

/-- The `case 'themes'` branch: `themeArg` is `args[0]`; a missing or empty
argument (`!themeArg`) lists the registry with a title reading
`themes[currentTheme].name` — a registered key gives its display name, a
key found only on the prototype chain still yields a truthy object whose
`.name` is rendered (opaquely modelled), and a key bound to neither throws
a `TypeError`; otherwise `setTheme` decides between a success line (again
reading `themes[themeArg]`, own or inherited) and the not-found line. -/
def runThemes (themeArg : String) (t : TermState) : HcResult :=
  if themeArg = "" then
    match themesMember t.themeState.currentTheme with
    | .undefinedAccess => .thrown t
    | .inherited =>
      finishOutcome { t with terminal := t.terminal ++
        ([.themesTitleInherited t.themeState.currentTheme, .brk] ++
         (getThemesList.map (fun kv =>
           .html ("<span class=\"cmd\">" ++ kv.1 ++
             (if kv.1 = t.themeState.currentTheme then " ✓" else "") ++
             "</span> <span class=\"cmd-desc\">" ++ kv.2.description ++ "</span>"))) ++
         [.html "💡 Usage: <span class=\"cmd\">themes &lt;theme-name&gt;</span> to switch themes"]) }
    | .own current =>
      finishOutcome { t with terminal := t.terminal ++
        ([.html ("🎨 Available Themes (Current: <span class=\"cmd\">" ++ current.name ++
           "</span>):"), .brk] ++
         (getThemesList.map (fun kv =>
           .html ("<span class=\"cmd\">" ++ kv.1 ++
             (if kv.1 = t.themeState.currentTheme then " ✓" else "") ++
             "</span> <span class=\"cmd-desc\">" ++ kv.2.description ++ "</span>"))) ++
         [.html "💡 Usage: <span class=\"cmd\">themes &lt;theme-name&gt;</span> to switch themes"]) }
  else
    match setTheme themeArg t.themeState with
    | (true, th2) =>
      match themesMember themeArg with
      | .own info =>
        finishOutcome { t with
          themeState := th2,
          terminal := t.terminal ++ [.html (themeChangedLine info)] }
      | .inherited =>
        finishOutcome { t with
          themeState := th2,
          terminal := t.terminal ++ [.themeChangedInherited themeArg] }
      | .undefinedAccess => .thrown { t with themeState := th2 }
    | (false, th2) =>
      finishOutcome { t with
        themeState := th2,
        terminal := t.terminal ++ [.html (themeNotFoundLine themeArg)] }

/-- `handleCommand(input, terminal)` from `terminal-logic.js`.

`dec` embeds `atob`, `remote` embeds `fetch`, `commandHistory` is the
(read-only here) history array from `terminal-events.js`, and `t` bundles
the module-level mutable state plus the rendered terminal.  The source's
`trimmedInput`, `command`, `args` and `normalizedCommand` constants are
inlined: `jsTrim input`, its `jsSplit` head, the split tail, and the
lowercased head.  Commands dispatch on `normalizedCommand`; the `clear`
case returns `{ clear: true }` early, every other case falls through to
the final `return { clear: false, currentDirectory }` (`finishOutcome`). -/
def handleCommand (dec : String → Option String) (remote : Remote)
    (commandHistory : List String) (input : String) (t : TermState) : HcResult :=
  if jsToLower ((jsSplit (jsTrim input)).headD "") = "." then runDot t
  else if jsToLower ((jsSplit (jsTrim input)).headD "") = "ls" then runLs remote t
  else if jsToLower ((jsSplit (jsTrim input)).headD "") = "cat" then
    runCat dec remote (((jsSplit (jsTrim input)).tail.head?).getD "") t
  else if jsToLower ((jsSplit (jsTrim input)).headD "") = "cd" then
    runCd remote (cdTarget (jsSplit (jsTrim input)).tail) t
  else if jsToLower ((jsSplit (jsTrim input)).headD "") = "clear" then runClear t
  else if jsToLower ((jsSplit (jsTrim input)).headD "") = "help" then runHelp t
  else if jsToLower ((jsSplit (jsTrim input)).headD "") = "history" then
    runHistory commandHistory t
  else if jsToLower ((jsSplit (jsTrim input)).headD "") = "github" then
    finishOutcome { t with terminal := t.terminal ++
      [.text "Opening GitHub profile in a new window..."] }
  else if jsToLower ((jsSplit (jsTrim input)).headD "") = "linkedin" then
    finishOutcome { t with terminal := t.terminal ++ [.text "Opening LinkedIn profile..."] }
  else if jsToLower ((jsSplit (jsTrim input)).headD "") = "pwd" then
    finishOutcome { t with terminal := t.terminal ++
      [.text ("/home/guest" ++
        (if t.currentDirectory = "/" then "" else t.currentDirectory))] }
  else if jsToLower ((jsSplit (jsTrim input)).headD "") = "themes" then
    runThemes (((jsSplit (jsTrim input)).tail.head?).getD "") t
  else if jsToLower ((jsSplit (jsTrim input)).headD "") = "welcome" then
    finishOutcome { t with terminal := t.terminal ++ [.welcome] }
  else if jsToLower ((jsSplit (jsTrim input)).headD "") = "whoami" then
    finishOutcome { t with terminal := t.terminal ++ [.text "guest"] }
  else if jsToLower ((jsSplit (jsTrim input)).headD "") = "about" then
    finishOutcome { t with terminal := t.terminal ++ [.aboutBio] }
  else if jsToLower ((jsSplit (jsTrim input)).headD "") = "education" then
    finishOutcome { t with terminal := t.terminal ++ [.educationBio] }
  else if jsToLower ((jsSplit (jsTrim input)).headD "") = "email" then
    finishOutcome { t with terminal := t.terminal ++ [.text "Opening email client..."] }
  else if jsToLower ((jsSplit (jsTrim input)).headD "") = "echo" then
    finishOutcome { t with terminal := t.terminal ++
      [.text (joinSpace (jsSplit (jsTrim input)).tail)] }
  else if jsToLower (jsTrim input) = "about me" then
    finishOutcome { t with terminal := t.terminal ++ [.aboutMeAnim] }
  else
    finishOutcome { t with terminal := t.terminal ++
      [.text ("Command not found: " ++ jsTrim input)] }

/-! ## Input controller (`terminal-events.js`)

The module-level variables `commandHistory`, `historyIndex` and the hidden
input's value (`hiddenInput.value`, mirrored into the visible span) are
bundled with the interpreter state into one record.  Key events are
embedded as functions on this record. -/

structure FullState where
  commandHistory : List String
  historyIndex : Int
  buffer : String
  term : TermState
deriving DecidableEq

/-- `resetTerminal` leaves the terminal with the welcome banner and a fresh
prompt; together with `resetCommandHistory` and the module initializers this
is the startup state: empty history, cursor at `-1` ("live"), empty buffer,
directory `/`, empty cache. -/
def initialFullState : FullState :=
  ⟨[], -1, "", ⟨initialDirectory, [], initialThemeState, [.welcome, .promptLine "~"]⟩⟩

/-- In the submission handler the echo line is inserted before the live
prompt and the old prompt removed; in this embedding the live prompt is the
trailing `promptLine` when present. -/
def replaceLastPrompt (lines : List OutLine) (e : OutLine) : List OutLine :=
  match lines.getLast? with
  | some (.promptLine _) => lines.dropLast ++ [e]
  | _ => lines ++ [e]

/-- The `Enter` branch of the `keydown` handler: trim the buffer; an empty
line is a no-op.  Otherwise push the line onto the history, reset the
history cursor to live, and execute.  A line whose lowercased text is
exactly `clear` is executed without an echo and without re-priming a
prompt; every other line is echoed, executed, and followed by a fresh
prompt reflecting the directory after execution — unless the outcome's
`clear` flag is set, in which case the handler returns early (before the
buffer is cleared). -/
def pressEnter (dec : String → Option String) (remote : Remote)
    (s : FullState) : FullState :=
  let command := jsTrim s.buffer
  if command = "" then s
  else
    let s1 : FullState :=
      { s with commandHistory := s.commandHistory ++ [command], historyIndex := -1 }
    if jsToLower command = "clear" then
      match handleCommand dec remote s1.commandHistory command s1.term with
      | .ok o t1 =>
        if o.clear then { s1 with term := t1, buffer := "" }
        else { s1 with term := t1 }
      | .thrown t1 => { s1 with term := t1 }
    else
      let t0 : TermState := { s1.term with
        terminal := replaceLastPrompt s1.term.terminal
          (.echoLine (dirDisplay s1.term.currentDirectory) command) }
      match handleCommand dec remote s1.commandHistory command t0 with
      | .ok o t1 =>
        if o.clear then { s1 with term := t1 }
        else
          { s1 with buffer := "", term := { t1 with
              terminal := t1.terminal ++ [.promptLine (dirDisplay t1.currentDirectory)] } }
      | .thrown t1 =>
        { s1 with buffer := "", term := { t1 with
            terminal := t1.terminal ++
              [.text "Error executing command.",
               .promptLine (dirDisplay t1.currentDirectory)] } }

/-- Set the input buffer to a typed line and submit it. -/
def submitLine (dec : String → Option String) (remote : Remote)
    (s : FullState) (line : String) : FullState :=
  pressEnter dec remote { s with buffer := line }

/-- The `ArrowUp` branch: advance the cursor towards the oldest entry and
load `commandHistory[length - 1 - historyIndex]` into the buffer. -/
def pressArrowUp (s : FullState) : FullState :=
  if 0 < s.commandHistory.length ∧
      s.historyIndex < (s.commandHistory.length : Int) - 1 then
    { s with historyIndex := s.historyIndex + 1,
             buffer := s.commandHistory.getD
               (s.commandHistory.length - 1 - (s.historyIndex + 1).toNat) "" }
  else s

/-- The `ArrowDown` branch: retreat the cursor towards live, loading the
corresponding entry, or clear the buffer when stepping past the newest
entry back to live (`historyIndex = -1`). -/
def pressArrowDown (s : FullState) : FullState :=
  if 0 < s.historyIndex then
    { s with historyIndex := s.historyIndex - 1,
             buffer := s.commandHistory.getD
               (s.commandHistory.length - 1 - (s.historyIndex - 1).toNat) "" }
  else if s.historyIndex = 0 then
    { s with historyIndex := -1, buffer := "" }
  else s

/-! ## Autocomplete session machine (Ctrl+U)

`startNewAutocompleteSession` runs an async IIFE: it awaits
`getAutocompleteSuggestions(currentInput)` and then applies the result.
The await point is embedded explicitly: `pending` holds the input string
captured when the request was issued, and `acResolve` is the continuation
that runs when the awaited suggestions arrive.  Between issue and
resolution arbitrary key events may run; a single outstanding request is
modelled.  Display-only effects (the candidate list and "No completions
found" lines) are not tracked. -/

structure AcState where
  buffer : String
  autocompleteSuggestions : List String
  autocompleteIndex : Int
  autocompleteBaseInput : String
  pending : Option String
  cache : Cache
deriving DecidableEq

/-- `getBaseInput`: all tokens but the last, joined by single spaces;
empty for a single-token line (command completion). -/
def getBaseInput (input : String) : String :=
  let parts := jsSplit (jsTrim input)
  if parts.length = 1 then ""
  else joinSpace parts.dropLast

/-- `applyCompletion`: replace the last token (or the whole single-token
line) with the chosen candidate and append one trailing space. -/
def applyCompletion (buffer completion : String) : String :=
  let parts := jsSplit (jsTrim buffer)
  if parts.length = 1 then completion ++ " "
  else joinSpace (parts.dropLast ++ [completion]) ++ " "

/-- Any keystroke other than Ctrl+U (and the `input` event fired by an
edit) resets the cycling-session variables — but does not touch an
in-flight suggestion request. -/
def resetAutocompleteState (s : AcState) : AcState :=
  { s with autocompleteSuggestions := [], autocompleteIndex := -1,
           autocompleteBaseInput := "" }

/-- A character-insertion event: the buffer grows and the session state is
reset (keydown reset plus the `input` listener). -/
def acType (c : Char) (s : AcState) : AcState :=
  resetAutocompleteState { s with buffer := s.buffer.push c }

/-- The Ctrl+U branch: on an empty (trimmed) buffer do nothing; resume the
cycle when a session is active and the recomputed base input still matches;
otherwise issue a fresh suggestion request (the async IIFE up to its await
point). -/
def acCtrlU (s : AcState) : AcState :=
  let currentInput := jsTrim s.buffer
  if currentInput = "" then s
  else if 0 < s.autocompleteSuggestions.length ∧
      s.autocompleteBaseInput = getBaseInput currentInput then
    let i := (s.autocompleteIndex + 1) % (s.autocompleteSuggestions.length : Int)
    { s with autocompleteIndex := i,
             buffer := applyCompletion s.buffer (s.autocompleteSuggestions.getD i.toNat "") }
  else
    { s with pending := some currentInput }

/-- The continuation of `startNewAutocompleteSession` after its await:
compute the suggestions for the *captured* input, then — with no check
that the buffer still corresponds to that input — install the session
variables and apply the first candidate to the buffer *as it is now*.
Zero candidates only shows a message; exactly one is applied and the
session reset; a crash inside the suggestion helpers (the `none` payload)
aborts the IIFE with nothing applied. -/
def acResolve (remote : Remote) (currentDirectory : String) (s : AcState) : AcState :=
  match s.pending with
  | none => s
  | some currentInput =>
    match getAutocompleteSuggestions remote currentDirectory s.cache currentInput with
    | (none, c1) => { s with pending := none, cache := c1 }
    | (some suggestions, c1) =>
      let s1 : AcState := { s with pending := none, cache := c1 }
      if suggestions.length = 0 then s1
      else
        let s2 : AcState := { s1 with
          autocompleteSuggestions := suggestions,
          autocompleteIndex := 0,
          autocompleteBaseInput := getBaseInput currentInput }
        if suggestions.length = 1 then
          resetAutocompleteState
            { s2 with buffer := applyCompletion s2.buffer (suggestions.headD "") }
        else
          { s2 with buffer := applyCompletion s2.buffer (suggestions.headD "") }

/-! ## Claim-level predicates and concrete instances

Predicates stating what the claims assert of the embedded code, and the
concrete remotes/decoders used by counterexamples and witnesses. -/

/-- What a normally-returned outcome records (cf. the final
`return { clear: false, currentDirectory }` and the `clear` case's
`return { clear: true }`). -/
def recordsOutcome (r : HcResult) : Prop :=
  ∀ o t', r = .ok o t' →
    o.currentDirectory = if o.clear then none else some t'.currentDirectory

/-- The invariant claimed for `currentPath`: absolute (`/`-rooted), and no
trailing slash except when the path is the root `/` itself. -/
def PathInv (p : String) : Prop :=
  p.toList.head? = some '/' ∧ (p = "/" ∨ p.toList.getLast? ≠ some '/')

/-- The invariant, read off a `handleCommand` result's final state. -/
def PathInvHc (r : HcResult) : Prop :=
  PathInv (r.state).currentDirectory

/-- Well-formedness of the remote provider: served directory listings
carry non-empty entry names, as the GitHub contents API guarantees. -/
def WFRemote (remote : Remote) : Prop :=
  ∀ p es, remote p = some (.listing es) → ∀ e ∈ es, e.name ≠ ""

/-- Well-formedness of the cache: cached listings carry non-empty entry
names (the cache only ever stores fetched payloads). -/
def WFCache (c : Cache) : Prop :=
  ∀ p es, cacheGet c p = some (.listing es) → ∀ e ∈ es, e.name ≠ ""

/-- The cached payload for `path` carries no truthy `content` field (the
condition under which `getFileContent` proceeds to its fetch path). -/
def cacheContentFalsy (cache : Cache) (path : String) : Prop :=
  ∀ ty c, cacheGet cache path = some (.fileObj ty (some c)) → c = ""

/-- The discard requirement claim C3 states for the input controller: if,
by the time a pending suggest request resolves, the (trimmed) buffer no
longer matches the input that issued the request — the user typed or
submitted in between — then resolution must leave the buffer unchanged
(the stale response is discarded rather than applied). -/
def staleSuggestionDiscarded : Prop :=
  ∀ (remote : Remote) (currentDirectory : String) (s : AcState) (issued : String),
    s.pending = some issued → jsTrim s.buffer ≠ issued →
    (acResolve remote currentDirectory s).buffer = s.buffer

/-- The concrete remote used by the C1 counterexample: the root lists the
directory `js`. -/
def c1remote : Remote :=
  fun p => if p = "/" then some (.listing [⟨"js", "dir"⟩]) else none

/-- A decoder that fails exactly on the transport payload `%%%`. -/
def c4dec : String → Option String :=
  fun s => if s = "%%%" then none else some s

/-- A remote where `/d` is a directory object and `/f` is a file object
whose content fails to decode. -/
def c4remote : Remote := fun p =>
  if p = "/d" then some (.listing [⟨"x", "file"⟩])
  else if p = "/f" then some (.fileObj "file" (some "%%%")) else none

/-- The concrete remote used by the C6 witness. -/
def c6remote : Remote :=
  fun p => if p = "/" then some (.listing [⟨"js", "dir"⟩]) else none

/-! ## Dispatch analysis helpers

`handleCommand` is a chain of `if` dispatches; properties of its result are
proved per case and composed over the chain. -/

theorem hcIte {P : HcResult → Prop} {c : Prop} [Decidable c] {a b : HcResult}
    (ha : P a) (hb : P b) : P (if c then a else b) := by
  by_cases h : c
  · rwa [if_pos h]
  · rwa [if_neg h]

theorem recordsOutcome_finish (u : TermState) : recordsOutcome (finishOutcome u) := by
  intro o t' h
  simp only [finishOutcome, HcResult.ok.injEq] at h
  obtain ⟨rfl, rfl⟩ := h
  rfl

theorem recordsOutcome_thrown (u : TermState) : recordsOutcome (.thrown u) := by
  intro o t' h
  simp at h

theorem recordsOutcome_runLs (remote : Remote) (t : TermState) :
    recordsOutcome (runLs remote t) := by
  unfold runLs
  split <;> first
    | exact recordsOutcome_finish _
    | exact recordsOutcome_thrown _

theorem recordsOutcome_catNotFoundTail (remote : Remote) (t1 : TermState) :
    recordsOutcome (catNotFoundTail remote t1) := by
  unfold catNotFoundTail
  split
  · split
    · exact recordsOutcome_finish _
    · exact recordsOutcome_finish _
  · exact recordsOutcome_thrown _
  · exact recordsOutcome_finish _

theorem recordsOutcome_runCat (dec : String → Option String) (remote : Remote)
    (filename : String) (t : TermState) : recordsOutcome (runCat dec remote filename t) := by
  unfold runCat
  split
  · exact recordsOutcome_finish _
  · split
    · exact recordsOutcome_finish _
    · exact recordsOutcome_catNotFoundTail _ _

theorem recordsOutcome_runCd (remote : Remote) (targetDir : String) (t : TermState) :
    recordsOutcome (runCd remote targetDir t) := by
  unfold runCd
  split
  · split
    · exact recordsOutcome_finish _
    · exact recordsOutcome_finish _
  · exact recordsOutcome_thrown _
  · split
    · exact recordsOutcome_finish _
    · exact recordsOutcome_finish _

theorem recordsOutcome_runClear (t : TermState) : recordsOutcome (runClear t) := by
  intro o t' h
  simp only [runClear, HcResult.ok.injEq] at h
  obtain ⟨rfl, rfl⟩ := h
  rfl

theorem recordsOutcome_runThemes (themeArg : String) (t : TermState) :
    recordsOutcome (runThemes themeArg t) := by
  unfold runThemes
  split
  · split
    · exact recordsOutcome_thrown _
    · exact recordsOutcome_finish _
    · exact recordsOutcome_finish _
  · split
    · split
      · exact recordsOutcome_finish _
      · exact recordsOutcome_finish _
      · exact recordsOutcome_thrown _
    · exact recordsOutcome_finish _

theorem recordsOutcome_handleCommand (dec : String → Option String)
    (remote : Remote) (hist : List String) (input : String) (t : TermState) :
    recordsOutcome (handleCommand dec remote hist input t) := by
  unfold handleCommand
  refine hcIte ?_ (hcIte ?_ (hcIte ?_ (hcIte ?_ (hcIte ?_ (hcIte ?_ (hcIte ?_ (hcIte ?_
    (hcIte ?_ (hcIte ?_ (hcIte ?_ (hcIte ?_ (hcIte ?_ (hcIte ?_ (hcIte ?_ (hcIte ?_
    (hcIte ?_ (hcIte ?_ ?_)))))))))))))))))
  · exact recordsOutcome_finish _
  · exact recordsOutcome_runLs _ _
  · exact recordsOutcome_runCat _ _ _ _
  · exact recordsOutcome_runCd _ _ _
  · exact recordsOutcome_runClear _
  · exact recordsOutcome_finish _
  · exact recordsOutcome_finish _
  · exact recordsOutcome_finish _
  · exact recordsOutcome_finish _
  · exact recordsOutcome_finish _
  · exact recordsOutcome_runThemes _ _
  · exact recordsOutcome_finish _
  · exact recordsOutcome_finish _
  · exact recordsOutcome_finish _
  · exact recordsOutcome_finish _
  · exact recordsOutcome_finish _
  · exact recordsOutcome_finish _
  · exact recordsOutcome_finish _
  · exact recordsOutcome_finish _

/-! ## Path lemmas

Facts about `lastIndexOfSlash`, `pathParent`, `pathLeaf` and `cdNewPath`
used by the path-resolution and working-directory claims. -/

theorem strToList_append (a b : String) : (a ++ b).toList = a.toList ++ b.toList := rfl

theorem strMk_toList (s : String) : String.mk s.toList = s := by
  cases s
  rfl

theorem lastSlashAux_noSlash (m : List Char) (h : ∀ c ∈ m, c ≠ '/') :
    ∀ (i acc : Int), lastSlashAux m i acc = acc := by
  induction m with
  | nil =>
    intro i acc
    rfl
  | cons c cs ih =>
    intro i acc
    have hc : ¬(c = '/') := h c (by simp)
    simp only [lastSlashAux, if_neg hc]
    exact ih (fun x hx => h x (by simp [hx])) _ _

theorem lastSlashAux_append (xs : List Char) :
    ∀ (m : List Char), (∀ c ∈ m, c ≠ '/') → ∀ (i acc : Int),
    lastSlashAux (xs ++ '/' :: m) i acc = i + xs.length := by
  induction xs with
  | nil =>
    intro m hm i acc
    simp only [List.nil_append, lastSlashAux, if_pos rfl]
    rw [lastSlashAux_noSlash m hm]
    simp
  | cons c cs ih =>
    intro m hm i acc
    rw [show lastSlashAux ((c :: cs) ++ '/' :: m) i acc =
      lastSlashAux (cs ++ '/' :: m) (i + 1) (if c = '/' then i else acc) from rfl,
      ih m hm]
    simp only [List.length_cons]
    push_cast
    ring

theorem lastIndexOfSlash_concat (pre leaf : String)
    (h : ∀ c ∈ leaf.toList, c ≠ '/') :
    lastIndexOfSlash (pre ++ "/" ++ leaf) = (pre.toList.length : Int) := by
  unfold lastIndexOfSlash
  rw [strToList_append, strToList_append,
    show ("/" : String).toList = ['/'] from rfl, List.append_assoc]
  simpa using lastSlashAux_append pre.toList leaf.toList h 0 (-1)

/-- Stripping the last segment: for a slash-free leaf and a non-empty
prefix, the parent of `pre/leaf` is `pre`. -/
theorem pathParent_concat (pre leaf : String) (h : ∀ c ∈ leaf.toList, c ≠ '/')
    (hpre : pre ≠ "") : pathParent (pre ++ "/" ++ leaf) = pre := by
  have htake : jsTake (pre ++ "/" ++ leaf) (lastIndexOfSlash (pre ++ "/" ++ leaf)) = pre := by
    unfold jsTake
    rw [lastIndexOfSlash_concat pre leaf h, strToList_append, strToList_append,
      show ("/" : String).toList = ['/'] from rfl, List.append_assoc]
    simp only [Int.toNat_natCast]
    rw [List.take_left, strMk_toList]
  unfold pathParent
  rw [htake, if_neg hpre]

/-- A single-segment absolute path strips to the root. -/
theorem pathParent_singleSeg (leaf : String) (h : ∀ c ∈ leaf.toList, c ≠ '/') :
    pathParent ("/" ++ leaf) = "/" := by
  have h0 : lastIndexOfSlash ("/" ++ leaf) = (0 : Int) := by
    simpa using lastIndexOfSlash_concat "" leaf h
  unfold pathParent jsTake
  rw [h0]
  simp

/-- A path whose last character is `/` has an empty leaf name. -/
theorem pathLeaf_of_trailingSlash (p : String)
    (h : p.toList.getLast? = some '/') : pathLeaf p = "" := by
  obtain ⟨xs, hxs⟩ : ∃ xs, p.toList = xs ++ ['/'] := by
    have hr : p.toList.reverse.head? = some '/' := by
      rw [List.head?_reverse]
      exact h
    rcases hrv : p.toList.reverse with _ | ⟨c0, ys⟩
    · rw [hrv] at hr
      simp at hr
    · rw [hrv] at hr
      simp only [List.head?_cons, Option.some.injEq] at hr
      refine ⟨ys.reverse, ?_⟩
      have := congrArg List.reverse hrv
      simpa [hr] using this
  unfold pathLeaf jsDropFrom lastIndexOfSlash
  rw [hxs, show (xs ++ ['/'] : List Char) = xs ++ '/' :: [] from rfl,
    lastSlashAux_append xs [] (by simp) 0 (-1)]
  have hlen : (xs ++ '/' :: []).length ≤ ((0 : Int) + xs.length + 1).toNat := by
    simp
  rw [List.drop_eq_nil_of_le hlen]

/-- If the first character of a non-empty `take` survives, so does the
head. -/
theorem head?_take_of_ne_nil (l : List Char) (n : Nat) (h : l.take n ≠ []) :
    (l.take n).head? = l.head? := by
  cases l with
  | nil => simp at h
  | cons c cs =>
    cases n with
    | zero => simp at h
    | succ n => simp

theorem pathParent_head (p : String) (h : p.toList.head? = some '/') :
    (pathParent p).toList.head? = some '/' := by
  unfold pathParent
  split
  · rfl
  · rename_i hne
    unfold jsTake at hne ⊢
    have hl : p.toList.take (lastIndexOfSlash p).toNat ≠ [] := by
      intro hc
      exact hne (by rw [hc])
    rw [show (String.mk (p.toList.take (lastIndexOfSlash p).toNat)).toList =
      p.toList.take (lastIndexOfSlash p).toNat from rfl]
    rw [head?_take_of_ne_nil _ _ hl]
    exact h

/-- The `cd` candidate is absolute whenever the current directory is. -/
theorem cdNewPath_head (current target : String)
    (h : current.toList.head? = some '/') :
    (cdNewPath current target).toList.head? = some '/' := by
  unfold cdNewPath
  split
  · exact pathParent_head current h
  · split
    · rename_i hsw
      simpa [startsWithSlash] using hsw
    · split
      · rw [strToList_append]
        rfl
      · rw [strToList_append, strToList_append]
        rcases hc : current.toList with _ | ⟨c0, cs⟩
        · rw [hc] at h
          simp at h
        · rw [hc] at h
          simp only [List.head?_cons, Option.some.injEq] at h
          simp [h]

/-! # Claims -/

/-! ## C10 — which theme arguments are rejected without mutation -/

/-- Counterexample to claim C10: the claim quantifies over *every* theme
argument that is not a key of the registry, but the source guard
`if (!themes[themeName])` is a falsiness check on a prototype-chain
property access.  `constructor` is not a key of the registry, yet
`themes['constructor']` is the inherited (truthy) `Object.prototype`
member, so `setTheme('constructor')` passes the guard, mutates the active
theme, the document theme attribute and the persisted selection, returns
`true`, and the `themes constructor` command renders a success line (built
from the inherited member's `.name`/`.description`), not the "not found"
error line. -/
theorem setTheme_inherited_key_accepted :
    themesGet "constructor" = none ∧
    setTheme "constructor" initialThemeState =
      (true, ⟨"constructor", some "constructor", some "constructor"⟩) ∧
    handleCommand (fun s => some s) (fun _ => none) [] "themes constructor"
      ⟨"/", [], initialThemeState, []⟩ =
      finishOutcome ⟨"/", [],
        ⟨"constructor", some "constructor", some "constructor"⟩,
        [.themeChangedInherited "constructor"]⟩ := by
  decide

/-- Amended claim C10: the guard rejects exactly the arguments on which
the property access `themes[themeName]` is `undefined`.  For every theme
argument that is neither a registry key nor an `Object.prototype` property
name, `setTheme` returns `false` and performs no mutation — the active
theme, the document theme attribute, and the persisted theme selection are
all left unchanged — and the `themes` command then renders the "not found"
error line (and only that line); but for an argument that is an inherited
`Object.prototype` property name (while still absent from the registry),
`setTheme` installs it as the active theme, the document attribute and the
persisted selection, and returns `true`. -/
theorem setTheme_nonmember_rejected
    (dec : String → Option String) (remote : Remote) (hist : List String)
    (input : String) (t : TermState) (themeName : String)
    (hk : themesMember themeName = .undefinedAccess)
    (hp : jsSplit (jsTrim input) = ["themes", themeName])
    (hne : themeName ≠ "") :
    setTheme themeName t.themeState = (false, t.themeState) ∧
    handleCommand dec remote hist input t =
      finishOutcome { t with terminal :=
        t.terminal ++ [.html (themeNotFoundLine themeName)] } ∧
    (∀ (name : String) (st : ThemeState), themesGet name = none →
      name ∈ objectPrototypeKeys →
      setTheme name st = (true, ⟨name, some name, some name⟩)) := by
  have hset : setTheme themeName t.themeState = (false, t.themeState) := by
    unfold setTheme
    rw [hk]
  refine ⟨hset, ?_, ?_⟩
  · have h1 : jsToLower "themes" = "themes" := by decide
    unfold handleCommand
    simp [hp, h1]
    simp [runThemes, hne, hset]
  · intro name st hnone hmem
    have hnm : name ≠ "catppuccin-mocha" := by
      rintro rfl
      exact absurd hnone (by decide)
    have hm : themesMember name = .inherited := by
      unfold themesMember
      rw [hnone]
      simp [hmem]
    unfold setTheme
    rw [hm]
    simp [setThemeApply, hnm]

/-- Witness for C10 at the concrete rejected argument `nope` and the
concrete inherited argument `toString`. -/
theorem setTheme_nonmember_rejected_witness :
    setTheme "nope" initialThemeState = (false, initialThemeState) ∧
    handleCommand (fun s => some s) (fun _ => none) [] "themes nope"
      initialFullState.term =
      finishOutcome { initialFullState.term with terminal :=
        initialFullState.term.terminal ++ [.html (themeNotFoundLine "nope")] } ∧
    setTheme "toString" initialThemeState =
      (true, ⟨"toString", some "toString", some "toString"⟩) := by
  have h := setTheme_nonmember_rejected (fun s => some s) (fun _ => none) []
    "themes nope" initialFullState.term "nope" (by decide) (by decide) (by decide)
  exact ⟨h.1, h.2.1, h.2.2 "toString" initialThemeState (by decide) (by decide)⟩

/-! ## C2 — what the outcome records -/

/-- Counterexample to claim C2: the claim asserts that *every* outcome —
including the one returned for the session-reset command — records the
working directory in effect after execution.  Executing `clear` returns
the object literal `{ clear: true }`, whose `currentDirectory` component
is `none`: the directory is not recorded. -/
theorem clear_outcome_carries_no_directory :
    handleCommand (fun s => some s) (fun _ => none) [] "clear"
      ⟨"/js", [], initialThemeState, []⟩ =
      .ok ⟨true, none⟩
        ⟨"/js", [], initialThemeState, [.promptLine "~/js"]⟩ := by
  decide

set_option maxHeartbeats 1000000 in
/-- Claim C2 (amended): for every submitted line on which the interpreter
returns normally, the outcome records whether a full reset was requested,
and — whenever no reset was requested — the working directory in effect
after execution; the session-reset outcome records only the reset flag and
carries no working directory. -/
theorem outcome_records_flag_and_directory
    (dec : String → Option String) (remote : Remote) (hist : List String)
    (input : String) (t : TermState) (o : Outcome) (t' : TermState)
    (h : handleCommand dec remote hist input t = .ok o t') :
    o.currentDirectory = if o.clear then none else some t'.currentDirectory :=
  recordsOutcome_handleCommand dec remote hist input t o t' h

/-- Witness for C2 (amended) on the concrete line `pwd`. -/
theorem outcome_records_flag_and_directory_witness :
    (Outcome.mk false (some "/")).currentDirectory =
      if (Outcome.mk false (some "/")).clear then none
      else some initialFullState.term.currentDirectory :=
  outcome_records_flag_and_directory (fun s => some s) (fun _ => none) []
    "pwd" initialFullState.term ⟨false, some "/"⟩
    { initialFullState.term with terminal :=
        initialFullState.term.terminal ++ [.text "/home/guest"] }
    (by decide)

/-! ## C1 — what the `clear` command actually resets -/

/-- Counterexample to claim C1: the claim asserts that executing `clear`
resets the Session (history and cursor), the working-directory state, and
the filesystem cache to their initial values.  Starting from the startup
state, submitting `cd js` and then `clear` leaves the directory `/js`
(initial: `/`), leaves the cache non-empty (initial: empty), and *appends*
`clear` to the history (initial: empty) — none of the three is reset. -/
theorem clear_does_not_reset_state :
    (submitLine (fun s => some s) c1remote
        (submitLine (fun s => some s) c1remote initialFullState "cd js")
        "clear").term.currentDirectory = "/js" ∧
    (submitLine (fun s => some s) c1remote
        (submitLine (fun s => some s) c1remote initialFullState "cd js")
        "clear").term.fileSystemCache = [("/", .listing [⟨"js", "dir"⟩])] ∧
    (submitLine (fun s => some s) c1remote
        (submitLine (fun s => some s) c1remote initialFullState "cd js")
        "clear").commandHistory = ["cd js", "clear"] ∧
    initialFullState.term.currentDirectory = "/" ∧
    initialFullState.term.fileSystemCache = [] ∧
    initialFullState.commandHistory = [] := by
  decide

/-- Claim C1 (amended): submitting the line `clear` makes the interpreter
signal the caller through the distinguished `{ clear: true }` outcome flag
(carrying no directory), and the caller discards all rendered output,
re-priming a single prompt that reflects the *unchanged* current working
directory; the submission appends `clear` to the command history and
resets the history cursor to live, and the working directory, the
filesystem cache, and the theme state are left unchanged. -/
theorem clear_submission_behavior
    (dec : String → Option String) (remote : Remote) (s : FullState)
    (h : jsTrim s.buffer = "clear") :
    handleCommand dec remote (s.commandHistory ++ ["clear"]) "clear" s.term =
      .ok ⟨true, none⟩
        { s.term with terminal := [.promptLine (dirDisplay s.term.currentDirectory)] } ∧
    pressEnter dec remote s =
      { s with
        commandHistory := s.commandHistory ++ ["clear"],
        historyIndex := -1,
        buffer := "",
        term := { s.term with
          terminal := [.promptLine (dirDisplay s.term.currentDirectory)] } } := by
  have hhc : ∀ hist, handleCommand dec remote hist "clear" s.term =
      .ok ⟨true, none⟩
        { s.term with terminal := [.promptLine (dirDisplay s.term.currentDirectory)] } :=
    fun _ => rfl
  refine ⟨hhc _, ?_⟩
  unfold pressEnter
  rw [h]
  simp [hhc, show jsToLower "clear" = "clear" from by decide]

/-! ## C4 — what `readFile` (`getFileContent`) returns -/

/-- Counterexample to claim C4: the claim requires the `NotAFile` and
`DecodeError` failure causes to be distinguishable in the result.  Reading
`/d` (a directory object — the NotAFile cause) and reading `/f` (a file
object whose content fails to decode — the DecodeError cause) both return
the same failure value `none`: the causes are not distinguishable. -/
theorem readFile_failures_indistinguishable :
    c4remote "/d" = some (.listing [⟨"x", "file"⟩]) ∧
    (getFileContent c4dec c4remote [] "/d").1 = none ∧
    c4remote "/f" = some (.fileObj "file" (some "%%%")) ∧
    c4dec "%%%" = none ∧
    (getFileContent c4dec c4remote [] "/f").1 = none ∧
    (getFileContent c4dec c4remote [] "/d").1 =
      (getFileContent c4dec c4remote [] "/f").1 := by
  decide

/-- The fetch path of `getFileContent`, fully characterized, for use by
the claim-C4 theorem. -/
theorem getFileContent_fetch (dec : String → Option String) (remote : Remote)
    (cache : Cache) (path : String) (hfal : cacheContentFalsy cache path) :
    getFileContent dec remote cache path =
      match remote path with
      | none => (none, cache)
      | some (.listing _) => (none, cache)
      | some (.fileObj _ none) => (none, cache)
      | some (.fileObj ty (some c)) =>
        if ty = "file" ∧ c ≠ "" then (dec c, cacheSet cache path (.fileObj ty (some c)))
        else (none, cache) := by
  unfold getFileContent
  rcases hcg : cacheGet cache path with _ | d
  · simp [hcg]
  · rcases d with es | ⟨ty', c'⟩
    · simp [hcg]
    · rcases c' with _ | c''
      · simp [hcg]
      · have hz : c'' = "" := hfal _ _ hcg
        subst hz
        simp [hcg]

/-- Claim C4 (amended): reading a file returns the cached decoded content
when the cached object carries truthy content (a failed decode of cached
content yields the literal error string instead); otherwise it fetches the
remote object, and a missing/failed response, a directory object, a
contentless or non-`file` object, and a fetch-path decode failure all
yield one and the same failure value `none` — the failure causes are not
distinguishable in the result; on a file object with truthy content the
raw object is cached before decoding (so the payload is cached even when
decoding then fails) and the decode result is returned. -/
theorem readFile_behavior (dec : String → Option String) (remote : Remote)
    (cache : Cache) (path : String) :
    (∀ ty c, cacheGet cache path = some (.fileObj ty (some c)) → c ≠ "" →
      getFileContent dec remote cache path =
        (match dec c with
         | some txt => (some txt, cache)
         | none => (some decodeErrorText, cache))) ∧
    (cacheContentFalsy cache path →
      (remote path = none → getFileContent dec remote cache path = (none, cache)) ∧
      (∀ es, remote path = some (.listing es) →
        getFileContent dec remote cache path = (none, cache)) ∧
      (∀ ty, remote path = some (.fileObj ty none) →
        getFileContent dec remote cache path = (none, cache)) ∧
      (∀ ty c, remote path = some (.fileObj ty (some c)) → ¬(ty = "file" ∧ c ≠ "") →
        getFileContent dec remote cache path = (none, cache)) ∧
      (∀ c, remote path = some (.fileObj "file" (some c)) → c ≠ "" →
        getFileContent dec remote cache path =
          (dec c, cacheSet cache path (.fileObj "file" (some c))))) := by
  constructor
  · intro ty c hc hcne
    unfold getFileContent
    simp [hc, hcne]
  · intro hfal
    refine ⟨?_, ?_, ?_, ?_, ?_⟩
    · intro hrem
      rw [getFileContent_fetch dec remote cache path hfal, hrem]
    · intro es hrem
      rw [getFileContent_fetch dec remote cache path hfal, hrem]
    · intro ty hrem
      rw [getFileContent_fetch dec remote cache path hfal, hrem]
    · intro ty c hrem hno
      rw [getFileContent_fetch dec remote cache path hfal, hrem]
      simp [hno]
    · intro c hrem hcne
      rw [getFileContent_fetch dec remote cache path hfal, hrem]
      simp [hcne]

/-- Witness for C4 (amended): a successful fetch-path read decodes,
caches, and returns the text. -/
theorem readFile_behavior_witness :
    getFileContent (fun s => some s)
        (fun p => if p = "/x" then some (.fileObj "file" (some "hi")) else none)
        [] "/x" =
      (some "hi", [("/x", RemoteData.fileObj "file" (some "hi"))]) := by
  have h := ((readFile_behavior (fun s => some s)
      (fun p => if p = "/x" then some (.fileObj "file" (some "hi")) else none)
      [] "/x").2
    (by intro ty c hc; simp [cacheGet] at hc)).2.2.2.2 "hi" (by decide) (by decide)
  exact h

/-! ## C8 — what the autocomplete suggest operation returns -/

/-- Counterexample to claim C8: the claim asserts an empty suggestion
sequence for any two-token input whose first token is not the
directory-change command; but the two-token input `themes g` yields the
theme-key completion `gruvbox`. -/
theorem suggest_two_token_themes_nonempty :
    (getAutocompleteSuggestions (fun _ => none) "/" [] "themes g").1 =
      some ["gruvbox"] ∧
    (["gruvbox"] : List String) ≠ [] := by
  decide

/-- Claim C8 (amended): with exactly one token, suggest returns the
registered command names extending the *lowercased* token, in registry
order; with exactly two tokens it dispatches on the lowercased first
token — `cd` returns the Directory-kind entry names of the working
directory extending the second token, with `..` prepended when the
working directory is not root and `..` extends the second token, but
returns the empty sequence (without `..`) when the listing cannot be
obtained; `themes` returns the registered theme keys extending the second
token; `cat` returns the File-kind entry names extending the second
token; any other first token yields the empty sequence — and more than
two tokens always yield the empty sequence. -/
theorem suggest_behavior (remote : Remote) (currentDirectory : String)
    (cache : Cache) (input : String) :
    (∀ tok, jsSplit (jsTrim input) = [tok] →
      getAutocompleteSuggestions remote currentDirectory cache input =
        (some ((commandList.map (fun c => c.cmd)).filter
          (fun c => jsStartsWith c (jsToLower tok))), cache)) ∧
    (∀ tok arg, jsSplit (jsTrim input) = [tok, arg] →
      (jsToLower tok = "cd" →
        (∀ es c1, getDirectoryContents remote cache currentDirectory =
            (some (.listing es), c1) →
          getAutocompleteSuggestions remote currentDirectory cache input =
            (some (if currentDirectory ≠ "/" ∧ jsStartsWith ".." arg then
                ".." :: ((es.filter (fun e => e.typ = "dir" ∧ jsStartsWith e.name arg)).map
                  (fun e => e.name))
              else
                ((es.filter (fun e => e.typ = "dir" ∧ jsStartsWith e.name arg)).map
                  (fun e => e.name))), c1)) ∧
        (∀ c1, getDirectoryContents remote cache currentDirectory = (none, c1) →
          getAutocompleteSuggestions remote currentDirectory cache input =
            (some [], c1))) ∧
      (jsToLower tok = "themes" →
        getAutocompleteSuggestions remote currentDirectory cache input =
          (some ((themes.map (fun kv => kv.1)).filter
            (fun k => jsStartsWith k arg)), cache)) ∧
      (jsToLower tok = "cat" →
        ∀ es c1, getDirectoryContents remote cache currentDirectory =
            (some (.listing es), c1) →
          getAutocompleteSuggestions remote currentDirectory cache input =
            (some ((es.filter (fun e => e.typ = "file" ∧ jsStartsWith e.name arg)).map
              (fun e => e.name)), c1)) ∧
      (jsToLower tok ∉ (["cat", "themes", "cd"] : List String) →
        getAutocompleteSuggestions remote currentDirectory cache input =
          (some [], cache))) ∧
    (3 ≤ (jsSplit (jsTrim input)).length →
      getAutocompleteSuggestions remote currentDirectory cache input =
        (some [], cache)) := by
  refine ⟨?_, ?_, ?_⟩
  · intro tok hp
    unfold getAutocompleteSuggestions
    simp [hp]
  · intro tok arg hp
    refine ⟨?_, ?_, ?_, ?_⟩
    · intro htok
      constructor
      · intro es c1 hdir
        unfold getAutocompleteSuggestions getDirectoryCompletions
        simp [hp, htok, hdir]
        split <;> rfl
      · intro c1 hdir
        unfold getAutocompleteSuggestions getDirectoryCompletions
        simp [hp, htok, hdir]
    · intro htok
      unfold getAutocompleteSuggestions
      simp [hp, htok, getThemeCompletions]
    · intro htok es c1 hdir
      unfold getAutocompleteSuggestions getFileCompletions
      simp [hp, htok, hdir]
    · intro htok
      simp only [List.mem_cons, List.mem_singleton, not_or] at htok
      obtain ⟨h1, h2, h3⟩ := htok
      unfold getAutocompleteSuggestions
      simp [hp, h1, h2, h3]
  · intro hlen
    unfold getAutocompleteSuggestions
    have h1 : (jsSplit (jsTrim input)).length ≠ 1 := by omega
    have h2 : (jsSplit (jsTrim input)).length ≠ 2 := by omega
    simp [h1, h2]

/-- Witness for C8 (amended), on the `cd` branch with a cached listing. -/
theorem suggest_behavior_witness :
    getAutocompleteSuggestions (fun _ => none) "/js"
        [("/js", RemoteData.listing [⟨"sub", "dir"⟩, ⟨"a.txt", "file"⟩])] "cd s" =
      (some ["sub"],
        [("/js", RemoteData.listing [⟨"sub", "dir"⟩, ⟨"a.txt", "file"⟩])]) := by
  have h := ((((suggest_behavior (fun _ => none) "/js"
      [("/js", RemoteData.listing [⟨"sub", "dir"⟩, ⟨"a.txt", "file"⟩])] "cd s").2.1
    "cd" "s" (by decide)).1 (by decide)).1) [⟨"sub", "dir"⟩, ⟨"a.txt", "file"⟩]
    [("/js", RemoteData.listing [⟨"sub", "dir"⟩, ⟨"a.txt", "file"⟩])]
    (by decide)
  simpa using h

/-! ## C3 — stale autocomplete responses -/

/-- Counterexample to claim C3: no such check exists.  The refuting state
is reached by real events — type `h`, press Ctrl+U (issuing a request for
`h`), type `x` while the request is in flight — and resolution still
applies the first suggestion, overwriting the buffer `hx` with `help `. -/
theorem stale_suggestion_applied :
    acType 'x' (acCtrlU (acType 'h' ⟨"", [], -1, "", none, []⟩)) =
      (⟨"hx", [], -1, "", some "h", []⟩ : AcState) ∧
    ¬ staleSuggestionDiscarded := by
  refine ⟨by decide, ?_⟩
  intro hcl
  have h := hcl (fun _ => none) "/" ⟨"hx", [], -1, "", some "h", []⟩ "h" rfl (by decide)
  have he : (acResolve (fun _ => none) "/"
      (⟨"hx", [], -1, "", some "h", []⟩ : AcState)).buffer = "help " := by decide
  rw [he] at h
  exact absurd h (by decide)

/-- Claim C3 (amended): the resolution handler performs no session-identity
check — whenever the pending request's suggestions are non-empty, it
applies the first suggestion to the buffer *as it is at resolution time*,
unconditionally; a keystroke during the await resets only the
cycling-session variables and does not invalidate the pending request. -/
theorem resolve_applies_unconditionally
    (remote : Remote) (currentDirectory : String) (s : AcState) (issued : String)
    (suggs : List String) (c1 : Cache)
    (hp : s.pending = some issued)
    (hs : getAutocompleteSuggestions remote currentDirectory s.cache issued =
      (some suggs, c1))
    (hne : suggs ≠ []) :
    (acResolve remote currentDirectory s).buffer =
      applyCompletion s.buffer (suggs.headD "") ∧
    (∀ ch, (acType ch s).pending = s.pending ∧
      (acType ch s).autocompleteSuggestions = []) := by
  constructor
  · unfold acResolve
    simp only [hp, hs]
    have hlz : ¬ suggs.length = 0 := by
      simpa [List.length_eq_zero] using hne
    by_cases hl : suggs.length = 1 <;> simp [hlz, hl, resetAutocompleteState]
  · intro ch
    constructor <;> simp [acType, resetAutocompleteState]

/-- Witness for C3 (amended): resolving a request issued for `c` against a
buffer since edited to `cx` applies `cat` (the first of the three
`c`-completions). -/
theorem resolve_applies_unconditionally_witness :
    (acResolve (fun _ => none) "/"
        (⟨"cx", [], -1, "", some "c", []⟩ : AcState)).buffer =
      applyCompletion "cx" ((["cat", "cd", "clear"] : List String).headD "") :=
  (resolve_applies_unconditionally (fun _ => none) "/"
    ⟨"cx", [], -1, "", some "c", []⟩ "c" ["cat", "cd", "clear"] []
    rfl (by decide) (by decide)).1

/-- Witness for C1 (amended): the buffer `" clear "` trims to `clear`. -/
theorem clear_submission_behavior_witness :
    pressEnter (fun s => some s) (fun _ => none)
        ⟨["pwd"], 0, " clear ",
         ⟨"/js", [], initialThemeState, [.promptLine "~/js"]⟩⟩ =
      ⟨["pwd", "clear"], -1, "",
       ⟨"/js", [], initialThemeState, [.promptLine "~/js"]⟩⟩ :=
  (clear_submission_behavior (fun s => some s) (fun _ => none)
    ⟨["pwd"], 0, " clear ",
     ⟨"/js", [], initialThemeState, [.promptLine "~/js"]⟩⟩ (by decide)).2

/-! ## C5 — path resolution -/

/-- Claim C5: for every current working directory and target, `cd` path
resolution behaves as specified: a missing or empty target yields the root
`/`; the target `..` strips the last path segment from the current
directory (root stays root); a target starting with `/` is used verbatim;
any other target is appended to the current directory with exactly one
separating `/`, with no doubled separator when the current directory is
root. -/
theorem resolve_spec (current target : String) :
    (cdNewPath current (cdTarget []) = "/") ∧
    (cdNewPath current (cdTarget [""]) = "/") ∧
    (cdNewPath current ".." = pathParent current) ∧
    (pathParent "/" = "/") ∧
    (∀ pre leaf : String, (∀ c ∈ leaf.toList, c ≠ '/') → pre ≠ "" →
      pathParent (pre ++ "/" ++ leaf) = pre) ∧
    (∀ leaf : String, (∀ c ∈ leaf.toList, c ≠ '/') →
      pathParent ("/" ++ leaf) = "/") ∧
    (startsWithSlash target = true → cdNewPath current target = target) ∧
    (startsWithSlash target = false → target ≠ ".." → target ≠ "" →
      cdNewPath current target =
        (if current = "/" then "" else current) ++ "/" ++ target) := by
  refine ⟨rfl, rfl, rfl, by decide, pathParent_concat, pathParent_singleSeg, ?_, ?_⟩
  · intro h
    have ht : target ≠ ".." := by
      rintro rfl
      simp [startsWithSlash] at h
    unfold cdNewPath
    rw [if_neg ht, if_pos h]
  · intro h0 hdd hne
    unfold cdNewPath
    rw [if_neg hdd, if_neg (by simp [h0])]
    by_cases hc : current = "/"
    · rw [if_pos hc, if_pos hc]
      rfl
    · rw [if_neg hc, if_neg hc]

/-- Witness for C5: stripping the last segment of `/a/b` yields `/a`, and
relative resolution appends with a single separator. -/
theorem resolve_spec_witness :
    pathParent ("/a" ++ "/" ++ "b") = "/a" ∧
    cdNewPath "/js" "docs" = (if "/js" = "/" then "" else "/js") ++ "/" ++ "docs" :=
  ⟨(resolve_spec "/" "x").2.2.2.2.1 "/a" "b" (by decide) (by decide),
   (resolve_spec "/js" "docs").2.2.2.2.2.2.2 (by decide) (by decide) (by decide)⟩

/-! ## C7 — failed `cd` leaves the working directory unchanged -/

/-- Claim C7: for every directory-change command whose resolved candidate
path is not root and whose parent lookup yields no listing containing an
entry with the candidate's leaf name and kind Directory, the command
emits the `no such file or directory` error line and leaves the working
directory (and the rest of the interpreter state except the cache) exactly
as it was; the outcome reports the unchanged directory. -/
theorem cd_failure_preserves_directory
    (dec : String → Option String) (remote : Remote) (hist : List String)
    (input : String) (t : TermState) (targetDir : String)
    (hcmd : jsToLower ((jsSplit (jsTrim input)).headD "") = "cd")
    (htarget : cdTarget (jsSplit (jsTrim input)).tail = targetDir)
    (hroot : cdNewPath t.currentDirectory targetDir ≠ "/")
    (hmiss :
      match (getDirectoryContents remote t.fileSystemCache
          (pathParent (cdNewPath t.currentDirectory targetDir))).1 with
      | none => True
      | some (.listing es) =>
        es.find? (fun item =>
          item.name = pathLeaf (cdNewPath t.currentDirectory targetDir) ∧
          item.typ = "dir") = none
      | some (.fileObj _ _) => False) :
    handleCommand dec remote hist input t =
      finishOutcome { t with
        fileSystemCache := (getDirectoryContents remote t.fileSystemCache
          (pathParent (cdNewPath t.currentDirectory targetDir))).2,
        terminal := t.terminal ++ [.text (cdNoSuchDirLine targetDir)] } := by
  have hrun : handleCommand dec remote hist input t = runCd remote targetDir t := by
    unfold handleCommand
    rw [htarget]
    rw [List.headD_eq_head?] at hcmd
    simp [hcmd]
  rw [hrun]
  unfold runCd
  rcases hdc : getDirectoryContents remote t.fileSystemCache
      (pathParent (cdNewPath t.currentDirectory targetDir)) with ⟨od, c1⟩
  rw [hdc] at hmiss
  rcases od with _ | (es | ⟨ty, co⟩)
  · dsimp only at hmiss ⊢
    rw [if_neg hroot]
  · dsimp only at hmiss ⊢
    have hcond : ¬(cdNewPath t.currentDirectory targetDir = "/" ∨
        (es.find? (fun item =>
          item.name = pathLeaf (cdNewPath t.currentDirectory targetDir) ∧
          item.typ = "dir")).isSome = true) := by
      rintro (hr | hsome)
      · exact hroot hr
      · rw [hmiss] at hsome
        simp at hsome
    rw [if_neg hcond]
  · exact False.elim hmiss

/-- Witness for C7: `cd nope` from `/` with a listing lacking `nope`. -/
theorem cd_failure_preserves_directory_witness :
    handleCommand (fun s => some s)
        (fun p => if p = "/" then some (.listing [⟨"js", "dir"⟩]) else none)
        [] "cd nope" ⟨"/", [], initialThemeState, []⟩ =
      finishOutcome { (⟨"/", [], initialThemeState, []⟩ : TermState) with
        fileSystemCache :=
          (getDirectoryContents
            (fun p => if p = "/" then some (.listing [⟨"js", "dir"⟩]) else none)
            [] (pathParent (cdNewPath "/" "nope"))).2,
        terminal := [OutLine.text (cdNoSuchDirLine "nope")] } :=
  cd_failure_preserves_directory (fun s => some s)
    (fun p => if p = "/" then some (.listing [⟨"js", "dir"⟩]) else none)
    [] "cd nope" ⟨"/", [], initialThemeState, []⟩ "nope"
    (by decide) (by decide) (by decide)
    (by exact (by decide : List.find? (fun item =>
      decide (item.name = pathLeaf (cdNewPath "/" "nope") ∧ item.typ = "dir"))
      [(⟨"js", "dir"⟩ : FsEntry)] = none))

/-! ## C6 — the working directory stays absolute with no trailing slash -/

theorem hcIteInv {c : Prop} [Decidable c] {a b : HcResult}
    (ha : PathInvHc a) (hb : PathInvHc b) : PathInvHc (if c then a else b) := by
  by_cases h : c
  · rwa [if_pos h]
  · rwa [if_neg h]

theorem getDirectoryContents_wf {remote : Remote} {cache : Cache} {p : String}
    {es : List FsEntry} {c1 : Cache} (hr : WFRemote remote) (hc : WFCache cache)
    (h : getDirectoryContents remote cache p = (some (.listing es), c1)) :
    ∀ e ∈ es, e.name ≠ "" := by
  unfold getDirectoryContents at h
  rcases hcg : cacheGet cache p with _ | d
  · rw [hcg] at h
    rcases hrem : remote p with _ | d'
    · rw [hrem] at h
      simp at h
    · rw [hrem] at h
      simp only [Prod.mk.injEq, Option.some.injEq] at h
      exact hr p es (h.1 ▸ hrem)
  · rw [hcg] at h
    simp only [Prod.mk.injEq, Option.some.injEq] at h
    exact hc p es (h.1 ▸ hcg)

/-- An accepted `cd` candidate with a non-empty leaf keeps the invariant. -/
theorem cdNewPath_inv (current target : String) (hinv : PathInv current)
    (hleaf : pathLeaf (cdNewPath current target) ≠ "") :
    PathInv (cdNewPath current target) := by
  refine ⟨cdNewPath_head current target hinv.1, Or.inr ?_⟩
  intro hlast
  exact hleaf (pathLeaf_of_trailingSlash _ hlast)

theorem runLs_dir (remote : Remote) (t : TermState) :
    ((runLs remote t).state).currentDirectory = t.currentDirectory := by
  unfold runLs
  split <;> rfl

theorem catNotFoundTail_dir (remote : Remote) (t1 : TermState) :
    ((catNotFoundTail remote t1).state).currentDirectory = t1.currentDirectory := by
  unfold catNotFoundTail
  split
  · split <;> rfl
  · rfl
  · rfl

theorem runCat_dir (dec : String → Option String) (remote : Remote)
    (filename : String) (t : TermState) :
    ((runCat dec remote filename t).state).currentDirectory = t.currentDirectory := by
  unfold runCat
  split
  · rfl
  · split
    · rfl
    · rw [catNotFoundTail_dir]

theorem runThemes_dir (themeArg : String) (t : TermState) :
    ((runThemes themeArg t).state).currentDirectory = t.currentDirectory := by
  unfold runThemes
  split
  · split <;> rfl
  · split
    · split <;> rfl
    · rfl

/-- The `cd` case preserves the invariant: an accepted candidate is either
the root or carries the (non-empty) name of a directory entry of its
parent listing as leaf, so it cannot end in a slash; a rejected or thrown
`cd` leaves the directory untouched. -/
theorem runCd_inv (remote : Remote) (targetDir : String) (t : TermState)
    (hr : WFRemote remote) (hc : WFCache t.fileSystemCache)
    (hinv : PathInv t.currentDirectory) :
    PathInv ((runCd remote targetDir t).state).currentDirectory := by
  unfold runCd
  rcases hdc : getDirectoryContents remote t.fileSystemCache
      (pathParent (cdNewPath t.currentDirectory targetDir)) with ⟨od, c1⟩
  rcases od with _ | (es | ⟨ty, co⟩)
  · dsimp only
    by_cases hroot : cdNewPath t.currentDirectory targetDir = "/"
    · rw [if_pos hroot]
      show PathInv (cdNewPath t.currentDirectory targetDir)
      rw [hroot]
      exact ⟨rfl, Or.inl rfl⟩
    · rw [if_neg hroot]
      exact hinv
  · dsimp only
    by_cases hcond : cdNewPath t.currentDirectory targetDir = "/" ∨
        (es.find? (fun item =>
          item.name = pathLeaf (cdNewPath t.currentDirectory targetDir) ∧
          item.typ = "dir")).isSome = true
    · rw [if_pos hcond]
      show PathInv (cdNewPath t.currentDirectory targetDir)
      rcases hcond with hroot | hsome
      · rw [hroot]
        exact ⟨rfl, Or.inl rfl⟩
      · obtain ⟨e, hfind⟩ := Option.isSome_iff_exists.mp hsome
        have hmem := List.mem_of_find?_eq_some hfind
        have hpred := List.find?_some hfind
        simp only [decide_eq_true_eq] at hpred
        have hname : e.name ≠ "" := getDirectoryContents_wf hr hc hdc e hmem
        exact cdNewPath_inv _ _ hinv (hpred.1 ▸ hname)
    · rw [if_neg hcond]
      exact hinv
  · exact hinv

/-- Claim C6: the initial working directory satisfies the invariant —
absolute, `/`-rooted, no trailing slash except the root — and every
command execution (normal or thrown) preserves it, provided the remote
and cached listings carry non-empty entry names. -/
theorem workingDirectory_invariant :
    PathInv initialDirectory ∧
    ∀ (dec : String → Option String) (remote : Remote) (hist : List String)
      (input : String) (t : TermState),
      WFRemote remote → WFCache t.fileSystemCache → PathInv t.currentDirectory →
      PathInv ((handleCommand dec remote hist input t).state).currentDirectory := by
  constructor
  · exact ⟨rfl, Or.inl rfl⟩
  · intro dec remote hist input t hr hc hinv
    show PathInvHc (handleCommand dec remote hist input t)
    unfold handleCommand
    refine hcIteInv ?_ (hcIteInv ?_ (hcIteInv ?_ (hcIteInv ?_ (hcIteInv ?_ (hcIteInv ?_
      (hcIteInv ?_ (hcIteInv ?_ (hcIteInv ?_ (hcIteInv ?_ (hcIteInv ?_ (hcIteInv ?_
      (hcIteInv ?_ (hcIteInv ?_ (hcIteInv ?_ (hcIteInv ?_ (hcIteInv ?_
      (hcIteInv ?_ ?_)))))))))))))))))
    · exact hinv
    · show PathInv ((runLs remote t).state).currentDirectory
      rw [runLs_dir]
      exact hinv
    · show PathInv ((runCat dec remote ((jsSplit (jsTrim input)).tail.head?.getD "") t).state).currentDirectory
      rw [runCat_dir]
      exact hinv
    · exact runCd_inv remote _ t hr hc hinv
    · exact hinv
    · exact hinv
    · exact hinv
    · exact hinv
    · exact hinv
    · exact hinv
    · show PathInv ((runThemes ((jsSplit (jsTrim input)).tail.head?.getD "") t).state).currentDirectory
      rw [runThemes_dir]
      exact hinv
    · exact hinv
    · exact hinv
    · exact hinv
    · exact hinv
    · exact hinv
    · exact hinv
    · exact hinv
    · exact hinv

theorem c6remote_wf : WFRemote c6remote := by
  intro p es h
  unfold c6remote at h
  by_cases hp : p = "/"
  · rw [if_pos hp] at h
    simp only [Option.some.injEq, RemoteData.listing.injEq] at h
    subst h
    intro e he
    simp only [List.mem_singleton] at he
    subst he
    decide
  · rw [if_neg hp] at h
    exact absurd h (by simp)

/-- Witness for C6: `cd js` from the startup state against a well-formed
remote installs `/js`, which satisfies the invariant. -/
theorem workingDirectory_invariant_witness :
    PathInv ((handleCommand (fun s => some s) c6remote
      [] "cd js" ⟨"/", [], initialThemeState, []⟩).state).currentDirectory :=
  workingDirectory_invariant.2 (fun s => some s) c6remote
    [] "cd js" ⟨"/", [], initialThemeState, []⟩
    c6remote_wf
    (by
      intro p es h
      simp [cacheGet] at h)
    ⟨rfl, Or.inl rfl⟩

/-! ## C9 — history navigation round-trip -/

/-- A non-empty submission appends exactly its trimmed line to the history
and resets the history cursor to live, in every execution branch. -/
theorem submitLine_history (dec : String → Option String) (remote : Remote)
    (s : FullState) (c : String) (hc : jsTrim c ≠ "") :
    (submitLine dec remote s c).commandHistory = s.commandHistory ++ [jsTrim c] ∧
    (submitLine dec remote s c).historyIndex = -1 := by
  unfold submitLine pressEnter
  simp only [hc, if_false]
  constructor
  all_goals
    repeat' split
  all_goals simp

/-- Folding non-empty submissions appends their trimmed lines in order. -/
theorem submitFold_commandHistory (dec : String → Option String) (remote : Remote)
    (cmds : List String) :
    ∀ (s : FullState), (∀ c ∈ cmds, jsTrim c ≠ "") →
    (cmds.foldl (submitLine dec remote) s).commandHistory =
      s.commandHistory ++ cmds.map (fun c => jsTrim c) := by
  induction cmds with
  | nil =>
    intro s _
    simp
  | cons c cs ih =>
    intro s h
    have h1 := (submitLine_history dec remote s c (h c (by simp))).1
    have h2 := ih (submitLine dec remote s c) (fun x hx => h x (by simp [hx]))
    simp only [List.foldl_cons, h2, h1, List.map_cons]
    simp

/-- After at least one non-empty submission the history cursor is live. -/
theorem submitFold_historyIndex (dec : String → Option String) (remote : Remote)
    (cmds : List String) :
    ∀ (s : FullState), (∀ c ∈ cmds, jsTrim c ≠ "") → cmds ≠ [] →
    (cmds.foldl (submitLine dec remote) s).historyIndex = -1 := by
  induction cmds with
  | nil =>
    intro s _ h
    exact absurd rfl h
  | cons c cs ih =>
    intro s h _
    rcases eq_or_ne cs [] with rfl | hcs
    · simpa using (submitLine_history dec remote s c (h c (by simp))).2
    · simpa using ih (submitLine dec remote s c) (fun x hx => h x (by simp [hx])) hcs

/-- Pressing history-previous `k ≤ N` times from the live cursor walks the
cursor to position `k - 1`, loading successively older entries and leaving
the history itself untouched. -/
theorem arrowUp_iter (k : Nat) :
    ∀ (s : FullState), s.historyIndex = -1 → k ≤ s.commandHistory.length →
    (pressArrowUp^[k] s).historyIndex = (k : Int) - 1 ∧
    (pressArrowUp^[k] s).commandHistory = s.commandHistory := by
  induction k with
  | zero =>
    intro s h1 _
    simpa using h1
  | succ k ih =>
    intro s h1 hk
    have ihs := ih s h1 (Nat.le_of_succ_le hk)
    rw [Function.iterate_succ_apply']
    set u := pressArrowUp^[k] s with hu
    have hcond : 0 < u.commandHistory.length ∧
        u.historyIndex < (u.commandHistory.length : Int) - 1 := by
      rw [ihs.1, ihs.2]
      constructor
      · omega
      · have : (k : Int) + 1 ≤ (s.commandHistory.length : Int) := by exact_mod_cast hk
        omega
    unfold pressArrowUp
    rw [if_pos hcond]
    refine ⟨?_, ?_⟩
    · simp only [ihs.1]
      push_cast
      ring
    · simpa using ihs.2

/-- Pressing history-next `i + 1` times from cursor position `i` retreats
past the newest entry back to live and clears the buffer. -/
theorem arrowDown_iter :
    ∀ (i : Nat) (s : FullState), s.historyIndex = (i : Int) →
    (pressArrowDown^[i + 1] s).buffer = "" ∧
    (pressArrowDown^[i + 1] s).historyIndex = -1 := by
  intro i
  induction i with
  | zero =>
    intro s h
    have h0 : s.historyIndex = 0 := by exact_mod_cast h
    rw [Function.iterate_one]
    unfold pressArrowDown
    rw [if_neg (by omega), if_pos h0]
    exact ⟨rfl, rfl⟩
  | succ i ih =>
    intro s h
    rw [Function.iterate_succ_apply]
    apply ih
    unfold pressArrowDown
    rw [if_pos (by rw [h]; exact_mod_cast Nat.succ_pos i)]
    simp only [h]
    push_cast
    ring

/-- Claim C9: for every `N ≥ 1`, after `N` non-empty submissions (starting
from the startup state), pressing history-previous `N` times and then
history-next `N` times restores the original empty input buffer and
returns the cursor to live. -/
theorem history_roundtrip (dec : String → Option String) (remote : Remote)
    (cmds : List String) (hne : cmds ≠ []) (hall : ∀ c ∈ cmds, jsTrim c ≠ "") :
    ((pressArrowDown^[cmds.length])
        ((pressArrowUp^[cmds.length])
          (cmds.foldl (submitLine dec remote) initialFullState))).buffer = "" ∧
    ((pressArrowDown^[cmds.length])
        ((pressArrowUp^[cmds.length])
          (cmds.foldl (submitLine dec remote) initialFullState))).historyIndex = -1 := by
  have hpos : 1 ≤ cmds.length := by
    rcases cmds with _ | ⟨c, cs⟩
    · exact absurd rfl hne
    · simp
  have hidx : (cmds.foldl (submitLine dec remote) initialFullState).historyIndex = -1 :=
    submitFold_historyIndex dec remote cmds initialFullState hall hne
  have hlen : (cmds.foldl (submitLine dec remote) initialFullState).commandHistory.length =
      cmds.length := by
    rw [submitFold_commandHistory dec remote cmds initialFullState hall]
    simp [initialFullState]
  have hup := arrowUp_iter cmds.length
    (cmds.foldl (submitLine dec remote) initialFullState) hidx (by omega)
  have hn1 : ((pressArrowUp^[cmds.length])
      (cmds.foldl (submitLine dec remote) initialFullState)).historyIndex =
      ((cmds.length - 1 : Nat) : Int) := by
    rw [hup.1]
    omega
  have hdown := arrowDown_iter (cmds.length - 1)
    ((pressArrowUp^[cmds.length]) (cmds.foldl (submitLine dec remote) initialFullState)) hn1
  rwa [Nat.sub_add_cancel hpos] at hdown

/-- Witness for C9 with the single submission `ls`. -/
theorem history_roundtrip_witness :
    ((pressArrowDown^[(["ls"] : List String).length])
        ((pressArrowUp^[(["ls"] : List String).length])
          ((["ls"] : List String).foldl
            (submitLine (fun s => some s) (fun _ => none)) initialFullState))).buffer = "" :=
  (history_roundtrip (fun s => some s) (fun _ => none) ["ls"]
    (by decide) (by decide)).1

end Whoami
